import Mathlib

/-!
Shallow embedding of the kleros-api dispute synchronization engine.

Embedded source files:
* `src/utils/StoreProviderWrapper.js` — store transport and typed read/write operations;
* `src/resources/Disputes.js` — event handlers and the dispute reconciliation
  algorithm `getDataForDispute`;
* `src/abstractWrappers/Disputes.js` — the juror draw scanner.

Modelling conventions: JS numbers are `Nat` (timestamps, ids, sessions) or `Int`
(signed token shifts); JS arrays with holes are `List (Option _)`; absent object
fields are `Option`; a rejected promise or thrown error is `Except`; the
asynchronous store service is explicit state threaded through the handlers.
Definitions whose doc comment starts with `Modelled from the spec:` translate
behaviour of code that is not part of the given sources (the store service
endpoints, `utils/PromiseQueue.js`, and the constants modules) from the
specification's description.
-/

namespace KlerosApi

abbrev Address := String

instance {ε α : Type} [DecidableEq ε] [DecidableEq α] : DecidableEq (Except ε α) :=
  fun x y =>
    match x, y with
    | .error a, .error b =>
      if h : a = b then .isTrue (congrArg Except.error h)
      else .isFalse (fun he => h (Except.error.inj he))
    | .ok a, .ok b =>
      if h : a = b then .isTrue (congrArg Except.ok h)
      else .isFalse (fun he => h (Except.ok.inj he))
    | .error _, .ok _ => .isFalse (fun he => Except.noConfusion he)
    | .ok _, .error _ => .isFalse (fun he => Except.noConfusion he)

/-- JS array read `l[i]`: out of range or a hole yields `undefined` (`none`). -/
def jGet (l : List (Option α)) (i : Nat) : Option α :=
  l.getD i none

/-- JS array assignment `l[i] = v`: pads with holes when `i` is past the end. -/
def jSet (l : List (Option α)) (i : Nat) (v : α) : List (Option α) :=
  (l ++ List.replicate (i + 1 - l.length) none).set i (some v)

theorem length_jSet (l : List (Option α)) (i : Nat) (v : α) :
    (jSet l i v).length = max l.length (i + 1) := by
  simp [jSet]
  omega

theorem jGet_jSet_self (l : List (Option α)) (i : Nat) (v : α) :
    jGet (jSet l i v) i = some v := by
  have hlen : i < (l ++ List.replicate (i + 1 - l.length) none).length := by
    simp; omega
  simp only [jGet, jSet, List.getD_eq_getElem?_getD,
    List.getElem?_set_eq_of_lt (some v) hlen]
  rfl

theorem jGet_jSet_ne (l : List (Option α)) (i j : Nat) (v : α) (h : j ≠ i) :
    jGet (jSet l i v) j = jGet l j := by
  simp only [jGet, jSet, List.getD_eq_getElem?_getD,
    List.getElem?_set_ne (Ne.symm h)]
  rcases Nat.lt_or_ge j l.length with hj | hj
  · rw [List.getElem?_append_left hj]
  · rw [List.getElem?_eq_none hj, List.getElem?_append_right hj,
      List.getElem?_replicate]
    split <;> rfl

-- **************************** --
-- * StoreProviderWrapper      * --
-- **************************** --

/-- Dynamic JSON-ish value for untyped store record fields. -/
inductive JVal where
  | str (s : String)
  | num (n : Int)
  | boolean (b : Bool)
  | null
deriving DecidableEq

/-- An HTTP response as observed by `_makeRequest` (`body` is the parsed JSON,
`none` when parsing fails or the body is `null`). -/
structure HttpResponse where
  status : Nat
  body : Option JVal
deriving DecidableEq

/-- Error surface of the store provider wrapper. -/
inductive StoreErr where
  | authNotSet
  | invalidAuthToken
  | requestFailed
  | profileNotFound (address : Address)
deriving DecidableEq

/-- Embedding of `StoreProviderWrapper._makeRequest`. `transport` is the outcome
of the XHR machinery: `.error` when `open`/`send` throws (the `catch` branch
that rejects with `REQUEST_FAILED`), `.ok` when a response of any status
arrives. The result is `none` when the returned promise never settles, and
`some` of the settled outcome otherwise. The guard rejects a non-GET verb
without a token before anything is sent. A 401 response rejects with
`INVALID_AUTH_TOKEN (body.error)` — but when the response body is `null` or
unparseable (`body = none`), evaluating `body.error` throws a `TypeError`
inside the `onreadystatechange` callback before `reject` runs, so the promise
never settles. Every other response — 2xx or not — resolves. -/
def makeRequest (verb : String) (token : Option String)
    (transport : Except Unit HttpResponse) :
    Option (Except StoreErr HttpResponse) :=
  if verb ≠ "GET" ∧ token = none then some (.error .authNotSet)
  else
    match transport with
    | .error _ => some (.error .requestFailed)
    | .ok resp =>
      if resp.status = 401 then
        match resp.body with
        | some _ => some (.error .invalidAuthToken)
        | none => none
      else some (.ok resp)

/-- Stored contract metadata entry of a user profile. -/
structure ContractRec where
  address : Address
  description : Option String
  email : Option String
deriving DecidableEq

/-- Per-user dispute profile entry (store-owned bookkeeping). -/
structure DisputeProfileRec where
  arbitratorAddress : Address
  disputeId : Nat
  netPNK : Option Int
  appealDraws : Option (List (List Nat))
  appealCreatedAt : Option (List (Option Nat))
  appealDeadlines : Option (List (Option Nat))
  appealRuledAt : Option (List (Option Nat))
deriving DecidableEq

/-- Store-owned user profile. -/
structure UserProfile where
  address : Address
  session : Option Nat
  lastBlock : Option Nat
  contracts : List ContractRec
  disputes : List DisputeProfileRec
deriving DecidableEq

/-- Embedding of `StoreProviderWrapper.getDisputes`: a missing profile yields
the empty collection, not an error. -/
def getDisputes (profile : Option UserProfile) : List DisputeProfileRec :=
  match profile with
  | none => []
  | some p => p.disputes

/-- Embedding of `StoreProviderWrapper.getContractByAddress`: a missing profile
throws `PROFILE_NOT_FOUND`; otherwise the first contract entry with the given
address (`undefined` when none matches). -/
def getContractByAddress (profile : Option UserProfile) (userAddress : Address)
    (addressContract : Address) : Except StoreErr (Option ContractRec) :=
  match profile with
  | none => .error (.profileNotFound userAddress)
  | some p => .ok ((p.contracts.filter (fun c => c.address == addressContract)).head?)

/-- Embedding of `StoreProviderWrapper.getDisputeDataForUser`: a missing profile
throws `PROFILE_NOT_FOUND`; otherwise the first dispute profile keyed by
`(arbitratorAddress, disputeId)` (`undefined` when none matches). -/
def getDisputeDataForUser (profile : Option UserProfile) (userAddress : Address)
    (arbitratorAddress : Address) (disputeId : Nat) :
    Except StoreErr (Option DisputeProfileRec) :=
  match profile with
  | none => .error (.profileNotFound userAddress)
  | some p => .ok ((p.disputes.filter (fun o =>
      o.arbitratorAddress == arbitratorAddress && o.disputeId == disputeId)).head?)

-- Untyped record model for the read-merge-write bodies of the update operations.

/-- A JS object as a partial map from field names to values. -/
def JRecord : Type := String → Option JVal

/-- The empty object `{}`. -/
def emptyRec : JRecord := fun _ => none

/-- JS field assignment `r[k] = v`. -/
def recSet (r : JRecord) (k : String) (v : JVal) : JRecord :=
  fun x => if x = k then some v else r x

/-- JS `delete r[k]`. -/
def recDelete (r : JRecord) (k : String) : JRecord :=
  fun x => if x = k then none else r x

/-- JS spread merge `{ ...current, ...params }`: fields of `params` win. -/
def recMerge (current params : JRecord) : JRecord :=
  fun x =>
    match params x with
    | some v => some v
    | none => current x

/-- Embedding of the body construction in `StoreProviderWrapper.updateUserProfile`:
fetch the current profile (absence is the empty object), delete the store
bookkeeping fields `_id` and `created_at`, force `params.address` to the user
address, then shallow-merge `params` over the current profile. The resulting
body is what is written to the store. -/
def updateUserProfileBody (userAddress : Address) (currentProfile : Option JRecord)
    (params : JRecord) : JRecord :=
  recMerge (recDelete (recDelete (currentProfile.getD emptyRec) "_id") "created_at")
    (recSet params "address" (JVal.str userAddress))

/-- Embedding of the body construction in `StoreProviderWrapper.updateDisputeProfile`:
fetch the current dispute profile from the user profile (absence is the empty
object), delete `_id`, force `params.disputeId` and `params.arbitratorAddress`
to the key, then shallow-merge `params` over the current record. -/
def updateDisputeProfileBody (arbitratorAddress : Address) (disputeId : Nat)
    (currentDisputeProfile : Option JRecord) (params : JRecord) : JRecord :=
  recMerge (recDelete (currentDisputeProfile.getD emptyRec) "_id")
    (recSet (recSet params "disputeId" (JVal.num disputeId))
      "arbitratorAddress" (JVal.str arbitratorAddress))

-- **************************** --
-- * Theorems: C8, C9, C10     * --
-- **************************** --

/-- C9, counterexample to the claim as stated, at two concrete inputs: a
response with HTTP status 500 (non-2xx, non-401) does not yield
`RequestFailed` — `_makeRequest` resolves with the response (status checks are
left to individual callers); and a 401 response whose body is `null` or
unparseable does not yield `InvalidAuthToken` — the callback evaluates
`body.error` on `null` and throws before rejecting, so the promise never
settles. -/
theorem makeRequest_divergences :
    makeRequest "POST" (some "token") (.ok ⟨500, none⟩) =
      some (.ok (⟨500, none⟩ : HttpResponse)) ∧
    makeRequest "POST" (some "token") (.ok ⟨401, none⟩) = none := by
  constructor <;> rfl

/-- C9 (amended): for every store request, a GET proceeds without any
credential; a non-GET request with no auth token set fails with the auth error
independently of the transport (nothing is sent); a 401 response with a
parseable non-null body yields `InvalidAuthToken`, while a 401 response with a
`null` or unparseable body never settles; a transport-level failure (the XHR
`open`/`send` throwing) yields `RequestFailed`; any other response — 2xx or
not — resolves with its status and body. -/
theorem makeRequest_error_surface (verb : String) (token : Option String)
    (transport : Except Unit HttpResponse) (resp : HttpResponse) (b : JVal) :
    (resp.status ≠ 401 → makeRequest "GET" none (.ok resp) = some (.ok resp)) ∧
    (verb ≠ "GET" → token = none →
      makeRequest verb token transport = some (.error .authNotSet)) ∧
    (token ≠ none ∨ verb = "GET" → transport = .ok resp → resp.status = 401 →
      resp.body = some b →
      makeRequest verb token transport = some (.error .invalidAuthToken)) ∧
    (token ≠ none ∨ verb = "GET" → transport = .ok resp → resp.status = 401 →
      resp.body = none →
      makeRequest verb token transport = none) ∧
    (token ≠ none ∨ verb = "GET" → transport = .error () →
      makeRequest verb token transport = some (.error .requestFailed)) ∧
    (token ≠ none ∨ verb = "GET" → transport = .ok resp → resp.status ≠ 401 →
      makeRequest verb token transport = some (.ok resp)) := by
  have hauth : token ≠ none ∨ verb = "GET" → ¬(verb ≠ "GET" ∧ token = none) := by
    rintro (h | h) ⟨h1, h2⟩ <;> exact absurd h2 (by simp_all)
  refine ⟨fun h => ?_, fun h1 h2 => ?_, fun h1 h2 h3 h4 => ?_,
    fun h1 h2 h3 h4 => ?_, fun h1 h2 => ?_, fun h1 h2 h3 => ?_⟩
  · simp [makeRequest, h]
  · simp [makeRequest, h1, h2]
  · subst h2; simp [makeRequest, hauth h1, h3, h4]
  · subst h2; simp [makeRequest, hauth h1, h3, h4]
  · subst h2; simp [makeRequest, hauth h1]
  · subst h2; simp [makeRequest, hauth h1, h3]

/-- C9 witness: the five behaviours at concrete requests. -/
theorem makeRequest_error_surface_witness :
    makeRequest "GET" none (.ok ⟨200, none⟩) =
      some (.ok (⟨200, none⟩ : HttpResponse)) ∧
    makeRequest "POST" none (.ok ⟨200, none⟩) = some (.error .authNotSet) ∧
    makeRequest "POST" (some "t") (.ok ⟨401, some (JVal.str "e")⟩) =
      some (.error .invalidAuthToken) ∧
    makeRequest "POST" (some "t") (.ok ⟨401, none⟩) = none ∧
    makeRequest "POST" (some "t") (.error ()) = some (.error .requestFailed) := by
  have h200 := makeRequest_error_surface "GET" none (.ok ⟨200, none⟩)
    ⟨200, none⟩ (JVal.str "e")
  have hpost := makeRequest_error_surface "POST" none (.ok ⟨200, none⟩)
    ⟨200, none⟩ (JVal.str "e")
  have h401 := makeRequest_error_surface "POST" (some "t")
    (.ok ⟨401, some (JVal.str "e")⟩) ⟨401, some (JVal.str "e")⟩ (JVal.str "e")
  have h401n := makeRequest_error_surface "POST" (some "t") (.ok ⟨401, none⟩)
    ⟨401, none⟩ (JVal.str "e")
  have herr := makeRequest_error_surface "POST" (some "t") (.error ())
    ⟨0, none⟩ (JVal.str "e")
  exact ⟨h200.1 (by decide), hpost.2.1 (by decide) rfl,
    h401.2.2.1 (by simp) rfl rfl rfl,
    h401n.2.2.2.1 (by simp) rfl rfl rfl,
    herr.2.2.2.2.1 (by simp) rfl⟩

/-- C10: for a user address with no stored profile, `getDisputes` returns the
empty list rather than an error, whereas `getContractByAddress` and
`getDisputeDataForUser` throw `ProfileNotFound`: profile absence is absorbed by
the collection-level getter but is an error for the record-level getters. -/
theorem missingProfile_getters (userAddress arbitratorAddress addressContract : Address)
    (disputeId : Nat) :
    getDisputes none = [] ∧
    getContractByAddress none userAddress addressContract =
      .error (.profileNotFound userAddress) ∧
    getDisputeDataForUser none userAddress arbitratorAddress disputeId =
      .error (.profileNotFound userAddress) :=
  ⟨rfl, rfl, rfl⟩

/-- C8, counterexample to the claim as stated: the `_id` field of the current
record is not named in the supplied partial fields, yet it is not retained in
the written record — `updateUserProfile` deletes it before merging. -/
theorem updateProfile_drops_id_field :
    updateUserProfileBody "u"
      (some (fun k => if k = "_id" then some (JVal.num 1) else none)) emptyRec "_id" =
      none ∧
    (fun k => if k = "_id" then some (JVal.num 1) else none : JRecord) "_id" =
      some (JVal.num 1) := by
  constructor <;> rfl

/-- C8 (amended): every update fetches the current record (treating absence as
the empty object), deletes the store bookkeeping fields (`_id` and `created_at`
for user profiles, `_id` for dispute profiles), forces the key fields
(`address`, resp. `disputeId` and `arbitratorAddress`) to the operation's
arguments, shallow-merges the remaining supplied fields over the current record
with supplied fields winning, and writes the merged record; every field of the
current record not named in the supplied partial fields and distinct from the
deleted bookkeeping fields and the forced key fields is retained unchanged. -/
theorem update_merge_frame (userAddress arbitratorAddress : Address) (disputeId : Nat)
    (current : Option JRecord) (params : JRecord) (k : String) (v : JVal) :
    (k ≠ "_id" → k ≠ "created_at" → k ≠ "address" → params k = none →
      updateUserProfileBody userAddress current params k = (current.getD emptyRec) k) ∧
    (params k = some v → k ≠ "address" →
      updateUserProfileBody userAddress current params k = some v) ∧
    (updateUserProfileBody userAddress current params "address" =
      some (JVal.str userAddress)) ∧
    (k ≠ "_id" → k ≠ "disputeId" → k ≠ "arbitratorAddress" → params k = none →
      updateDisputeProfileBody arbitratorAddress disputeId current params k =
        (current.getD emptyRec) k) ∧
    (params k = some v → k ≠ "disputeId" → k ≠ "arbitratorAddress" →
      updateDisputeProfileBody arbitratorAddress disputeId current params k = some v) ∧
    (updateDisputeProfileBody arbitratorAddress disputeId current params "disputeId" =
      some (JVal.num disputeId)) ∧
    (updateDisputeProfileBody arbitratorAddress disputeId current params
      "arbitratorAddress" = some (JVal.str arbitratorAddress)) := by
  refine ⟨fun h1 h2 h3 h4 => ?_, fun h1 h2 => ?_, ?_, fun h1 h2 h3 h4 => ?_,
    fun h1 h2 h3 => ?_, ?_, ?_⟩ <;>
    simp_all [updateUserProfileBody, updateDisputeProfileBody, recMerge, recSet,
      recDelete]

/-- C8 witness: a supplied field wins and an untouched field is retained, at a
concrete profile. -/
theorem update_merge_frame_witness :
    updateUserProfileBody "u"
      (some (fun k => if k = "lastBlock" then some (JVal.num 7) else none))
      (fun k => if k = "session" then some (JVal.num 5) else none) "session" =
      some (JVal.num 5) ∧
    updateUserProfileBody "u"
      (some (fun k => if k = "lastBlock" then some (JVal.num 7) else none))
      (fun k => if k = "session" then some (JVal.num 5) else none) "lastBlock" =
      some (JVal.num 7) := by
  have hs := update_merge_frame "u" "a" 0
    (some (fun k => if k = "lastBlock" then some (JVal.num 7) else none))
    (fun k => if k = "session" then some (JVal.num 5) else none) "session" (JVal.num 5)
  have hl := update_merge_frame "u" "a" 0
    (some (fun k => if k = "lastBlock" then some (JVal.num 7) else none))
    (fun k => if k = "session" then some (JVal.num 5) else none) "lastBlock" (JVal.num 5)
  refine ⟨hs.2.1 rfl (by decide), ?_⟩
  rw [hl.1 (by decide) (by decide) (by decide) rfl]
  rfl

-- **************************** --
-- * Ordered write queue (C2)  * --
-- **************************** --

/-- Read and write phases of queued operations, as schedule events. -/
inductive QEv where
  | readEv (i : Nat)
  | writeEv (i : Nat)
deriving DecidableEq

/-- The event at position `k` of the sequential schedule. -/
def evOfIdx (k : Nat) : QEv :=
  if k % 2 = 0 then .readEv (k / 2) else .writeEv (k / 2)

/-- Modelled from the spec: `queueWriteRequest` chains each operation onto the
queue's tail promise (`utils/PromiseQueue.js` is not under `src/`), so the only
schedule the queue admits for `n` operations is the sequential one, in which
each operation's read phase runs immediately before its own write and
operations run in submission order. -/
def canonicalSched (n : Nat) : List QEv :=
  (List.range (2 * n)).map evOfIdx

/-- A queued write operation of `queueWriteRequest`: `getBody` is the
`getBodyFn` read phase building the request body, `write` the store write
applying it. -/
structure WriteOp (σ β : Type) where
  getBody : σ → β
  write : β → σ → σ

/-- One scheduler step over (store state, completed read results). -/
def qStep (ops : Nat → WriteOp σ β) :
    σ × (Nat → Option β) → QEv → σ × (Nat → Option β)
  | (s, bodies), .readEv i =>
    (s, fun j => if j = i then some ((ops i).getBody s) else bodies j)
  | (s, bodies), .writeEv i =>
    match bodies i with
    | some b => ((ops i).write b s, bodies)
    | none => (s, bodies)

/-- Final store state after executing a schedule of read/write phases. -/
def qExec (ops : Nat → WriteOp σ β) (sched : List QEv) (s : σ) : σ :=
  (sched.foldl (qStep ops) (s, fun _ => none)).1

/-- Sequential read-modify-write execution of operations `0..n-1` in
submission order. -/
def seqApply (ops : Nat → WriteOp σ β) (n : Nat) (s : σ) : σ :=
  (List.range n).foldl (fun st i => (ops i).write ((ops i).getBody st) st) s

/-- Position of an event in a schedule. -/
def schedPos (sched : List QEv) (e : QEv) : Nat :=
  sched.indexOf e

/-- A schedule the promise queue can produce for `n` queued operations: it is
a permutation of the `2 * n` phases, each operation's read completes before its
own write, and — the chaining discipline of the queue — operation `i + 1`
starts its read only after operation `i` has committed its write. -/
structure QueueValid (n : Nat) (sched : List QEv) : Prop where
  perm : sched.Perm (canonicalSched n)
  read_write : ∀ i, i < n →
    schedPos sched (.readEv i) < schedPos sched (.writeEv i)
  fifo : ∀ i, i < n - 1 →
    schedPos sched (.writeEv i) < schedPos sched (.readEv (i + 1))

theorem evOfIdx_two_mul (i : Nat) : evOfIdx (2 * i) = .readEv i := by
  have h1 : (2 * i) % 2 = 0 := by omega
  have h2 : (2 * i) / 2 = i := by omega
  simp [evOfIdx, h1, h2]

theorem evOfIdx_two_mul_add_one (i : Nat) : evOfIdx (2 * i + 1) = .writeEv i := by
  have h1 : (2 * i + 1) % 2 = 1 := by omega
  have h2 : (2 * i + 1) / 2 = i := by omega
  simp [evOfIdx, h1, h2]

theorem length_canonicalSched (n : Nat) : (canonicalSched n).length = 2 * n := by
  simp [canonicalSched]

theorem evOfIdx_mem_canonicalSched {n k : Nat} (h : k < 2 * n) :
    evOfIdx k ∈ canonicalSched n := by
  simp only [canonicalSched, List.mem_map, List.mem_range]
  exact ⟨k, h, rfl⟩

/-- A sequence of naturals strictly increasing along `0..m-1` and bounded by
`m` is the identity. -/
theorem strict_chain_eq_id (f : Nat → Nat) (m : Nat)
    (hstep : ∀ k, k + 1 < m → f k < f (k + 1)) (hbound : ∀ k, k < m → f k < m) :
    ∀ k, k < m → f k = k := by
  have mono : ∀ d j, j + d < m → f j + d ≤ f (j + d) := by
    intro d
    induction d with
    | zero => intro j h; simp
    | succ d ih =>
      intro j h
      have h1 := ih j (by omega)
      have h2 := hstep (j + d) (by omega)
      have h3 : j + (d + 1) = j + d + 1 := rfl
      rw [h3]
      omega
  intro k hk
  have hlow : k ≤ f k := by
    have h4 := mono k 0 (by omega)
    have h5 : (0 : Nat) + k = k := by omega
    rw [h5] at h4
    omega
  have hup : f k ≤ k := by
    have h1 : m - 1 < m := by omega
    have h2 := mono (m - 1 - k) k (by omega)
    have h6 : k + (m - 1 - k) = m - 1 := by omega
    rw [h6] at h2
    have h3 := hbound (m - 1) h1
    omega
  omega

theorem QueueValid.pos_evOfIdx {n : Nat} {sched : List QEv} (h : QueueValid n sched) :
    ∀ k, k < 2 * n → schedPos sched (evOfIdx k) = k := by
  have hlen : sched.length = 2 * n := by
    rw [h.perm.length_eq, length_canonicalSched]
  have hbound : ∀ k, k < 2 * n → schedPos sched (evOfIdx k) < 2 * n := by
    intro k hk
    rw [← hlen]
    exact List.indexOf_lt_length.2 (h.perm.mem_iff.2 (evOfIdx_mem_canonicalSched hk))
  have hstep : ∀ k, k + 1 < 2 * n →
      schedPos sched (evOfIdx k) < schedPos sched (evOfIdx (k + 1)) := by
    intro k hk1
    rcases Nat.even_or_odd k with ⟨i, hi⟩ | ⟨i, hi⟩
    · have h2 : k = 2 * i := by omega
      have e1 : evOfIdx k = .readEv i := by rw [h2]; exact evOfIdx_two_mul i
      have e2 : evOfIdx (k + 1) = .writeEv i := by
        rw [h2]; exact evOfIdx_two_mul_add_one i
      rw [e1, e2]
      exact h.read_write i (by omega)
    · have h2 : k = 2 * i + 1 := by omega
      have e1 : evOfIdx k = .writeEv i := by rw [h2]; exact evOfIdx_two_mul_add_one i
      have e2 : evOfIdx (k + 1) = .readEv (i + 1) := by
        have h3 : k + 1 = 2 * (i + 1) := by omega
        rw [h3]; exact evOfIdx_two_mul (i + 1)
      rw [e1, e2]
      exact h.fifo i (by omega)
  exact strict_chain_eq_id _ (2 * n) hstep hbound

theorem QueueValid.sched_eq {n : Nat} {sched : List QEv} (h : QueueValid n sched) :
    sched = canonicalSched n := by
  have hlen : sched.length = 2 * n := by
    rw [h.perm.length_eq, length_canonicalSched]
  apply List.ext_getElem (by rw [hlen, length_canonicalSched])
  intro k h1 h2
  have hk : k < 2 * n := by omega
  have hmem : evOfIdx k ∈ sched := h.perm.mem_iff.2 (evOfIdx_mem_canonicalSched hk)
  have hidx : sched.indexOf (evOfIdx k) = k := h.pos_evOfIdx k hk
  have hcan : (canonicalSched n)[k] = evOfIdx k := by
    simp [canonicalSched]
  have h5 : sched.get? (List.indexOf (evOfIdx k) sched) = some (evOfIdx k) :=
    List.indexOf_get? hmem
  rw [hidx, List.get?_eq_getElem?] at h5
  rw [hcan]
  exact List.getElem_eq_iff.mpr h5

theorem foldl_canonicalSched_fst (ops : Nat → WriteOp σ β) :
    ∀ (n : Nat) (s : σ) (bodies : Nat → Option β),
      ((canonicalSched n).foldl (qStep ops) (s, bodies)).1 = seqApply ops n s := by
  intro n
  induction n with
  | zero => intro s bodies; simp [canonicalSched, seqApply]
  | succ n ih =>
    intro s bodies
    have hsplit : canonicalSched (n + 1) =
        canonicalSched n ++ [.readEv n, .writeEv n] := by
      unfold canonicalSched
      have h2 : 2 * (n + 1) = 2 * n + 1 + 1 := by omega
      rw [h2, List.range_succ, List.range_succ]
      simp [evOfIdx_two_mul, evOfIdx_two_mul_add_one]
    rw [hsplit, List.foldl_append]
    rcases hq : (canonicalSched n).foldl (qStep ops) (s, bodies) with ⟨s1, b1⟩
    have hfst : s1 = seqApply ops n s := by
      have h3 := ih s bodies
      rw [hq] at h3
      exact h3
    simp only [List.foldl_cons, List.foldl_nil, qStep]
    rw [hfst]
    simp [seqApply, List.range_succ]

/-- C2: any read/write schedule the promise queue can produce for `n` write
operations is the sequential one, hence the store-visible effects commit in
submission order (each operation's write is computed by its read from the state
left by the previous operation's write), write events occur in submission
order, and each operation's write is at the position immediately after its own
read — so no other queued write interleaves between an operation's read phase
and its write, and at most one operation is executing at any time. -/
theorem queueWriteRequest_serializes (σ β : Type) (ops : Nat → WriteOp σ β)
    (n : Nat) (sched : List QEv) (s : σ) (h : QueueValid n sched) :
    sched = canonicalSched n ∧
    qExec ops sched s = seqApply ops n s ∧
    (∀ i j, i < j → j < n →
      schedPos sched (.writeEv i) < schedPos sched (.writeEv j)) ∧
    (∀ i, i < n → schedPos sched (.writeEv i) = schedPos sched (.readEv i) + 1) := by
  have hposr : ∀ i, i < n → schedPos sched (.readEv i) = 2 * i := by
    intro i hi
    have h3 := h.pos_evOfIdx (2 * i) (by omega)
    rwa [evOfIdx_two_mul] at h3
  have hposw : ∀ i, i < n → schedPos sched (.writeEv i) = 2 * i + 1 := by
    intro i hi
    have h3 := h.pos_evOfIdx (2 * i + 1) (by omega)
    rwa [evOfIdx_two_mul_add_one] at h3
  refine ⟨h.sched_eq, ?_, ?_, ?_⟩
  · rw [h.sched_eq]
    exact foldl_canonicalSched_fst ops n s _
  · intro i j hij hj
    rw [hposw i (by omega), hposw j hj]
    omega
  · intro i hi
    rw [hposw i hi, hposr i hi]

/-- C2 witness: two concrete operations on a `Nat` store, scheduled by the
queue, commit sequentially. -/
theorem queueWriteRequest_serializes_witness :
    QueueValid 2 (canonicalSched 2) ∧
    qExec (fun i => (⟨fun st => st + i + 1, fun b st => st + b⟩ : WriteOp Nat Nat))
        (canonicalSched 2) 0 =
      seqApply (fun i => (⟨fun st => st + i + 1, fun b st => st + b⟩ : WriteOp Nat Nat))
        2 0 := by
  have hv : QueueValid 2 (canonicalSched 2) :=
    ⟨List.Perm.refl _, by decide, by decide⟩
  exact ⟨hv,
    (queueWriteRequest_serializes Nat Nat
      (fun i => (⟨fun st => st + i + 1, fun b st => st + b⟩ : WriteOp Nat Nat))
      2 (canonicalSched 2) 0 hv).2.1⟩

-- **************************** --
-- * Dispute reconciliation    * --
-- **************************** --

/-- Modelled from the spec: the arbitrator period enum
(`constants/arbitrator.js` is not under `src/`) — the phases of a session in
order: activation, draw, vote, appeal, execute. -/
def PERIOD_ACTIVATION : Nat := 0

def PERIOD_DRAW : Nat := 1

def PERIOD_VOTE : Nat := 2

def PERIOD_APPEAL : Nat := 3

def PERIOD_EXECUTE : Nat := 4

/-- Modelled from the spec: the dispute state enum (`constants/dispute.js` is
not under `src/`) — `Open, Resolving, Executable, Executed`. -/
def STATE_OPEN : Nat := 0

def STATE_RESOLVING : Nat := 1

def STATE_EXECUTABLE : Nat := 2

def STATE_EXECUTED : Nat := 3

/-- A ledger dispute record as returned by the arbitrator's `getDispute`. -/
structure DisputeRec where
  arbitrableContractAddress : Address
  firstSession : Nat
  numberOfAppeals : Nat
  state : Nat
  status : Nat
  arbitrationFeePerJuror : Nat
  voteCounters : List Nat
deriving DecidableEq

/-- The ledger reads `getDataForDispute` performs, with the queried account
fixed: current period and session, per-round current ruling, and the
`canRuleDispute` query for this account. -/
structure LedgerView where
  period : Nat
  session : Nat
  currentRulingForDispute : Nat → Nat
  canRuleDispute : List Nat → Bool

/-- Arbitrable contract data (`getData` of the arbitrable instance). -/
structure ArbitrableData where
  partyA : Address
  partyB : Address
  status : Nat
deriving DecidableEq

/-- The store's shared dispute record keyed by
`(arbitratorAddress, disputeId)`; its appeal-round fields are what the
per-user `getDisputeData` read returns for a tracked dispute. -/
structure StoreDispute where
  arbitratorAddress : Address
  disputeId : Nat
  contractAddress : Option Address
  partyA : Option Address
  partyB : Option Address
  status : Option Nat
  appealCreatedAt : Option (List (Option Nat))
  appealDeadlines : Option (List (Option Nat))
  appealRuledAt : Option (List (Option Nat))
  appealDraws : Option (List (List Nat))
  netPNK : Option Int
deriving DecidableEq

/-- Element of the `appealJuror` sequence of the merged dispute view. -/
structure AppealJurorInfo where
  createdAt : Option Nat
  fee : Nat
  draws : List Nat
  canRule : Bool
deriving DecidableEq

/-- Element of the `appealRulings` sequence of the merged dispute view. -/
structure AppealRulingInfo where
  voteCounter : Option Nat
  deadline : Option Nat
  ruledAt : Option Nat
  ruling : Nat
  canRepartition : Bool
  canExecute : Bool
deriving DecidableEq

/-- The merged dispute view returned by `getDataForDispute`. -/
structure DisputeData where
  arbitrableContractAddress : Address
  arbitrableContractStatus : Nat
  arbitratorAddress : Address
  partyA : Address
  partyB : Address
  disputeId : Nat
  firstSession : Nat
  lastSession : Nat
  numberOfAppeals : Nat
  disputeState : Nat
  disputeStatus : Nat
  appealJuror : List AppealJurorInfo
  appealRulings : List AppealRulingInfo
  description : Option String
  email : Option String
  evidence : List Nat
  netPNK : Int
  appealCreatedAt : List (Option Nat)
  appealDeadlines : List (Option Nat)
  appealRuledAt : List (Option Nat)
deriving DecidableEq

/-- The store-derived locals of `getDataForDispute`: the `try`/`catch` around
the per-user `getDisputeData` read — any failure leaves the empty-array and
zero defaults in place. -/
structure StoreDerived where
  appealDraws : List (List Nat)
  appealCreatedAt : List (Option Nat)
  appealDeadlines : List (Option Nat)
  appealRuledAt : List (Option Nat)
  netPNK : Int
deriving DecidableEq

def storeDerivedOf (userDataFetch : Except Unit StoreDispute) : StoreDerived :=
  match userDataFetch with
  | .error _ => ⟨[], [], [], [], 0⟩
  | .ok u =>
    ⟨u.appealDraws.getD [], u.appealCreatedAt.getD [], u.appealDeadlines.getD [],
      u.appealRuledAt.getD [], u.netPNK.getD 0⟩

/-- One element of the `appealJuror` loop of `getDataForDispute`: `canRule` is
queried from the ledger only for the last appeal and only when that round's
stored draws are non-empty (otherwise the destructured value is falsy). -/
def buildAppealJuror (L : LedgerView) (d : DisputeRec) (appealDraws : List (List Nat))
    (appealCreatedAt : List (Option Nat)) (appeal : Nat) : AppealJurorInfo :=
  let lastSession := d.firstSession + d.numberOfAppeals
  let isLastAppeal := d.firstSession + appeal == lastSession
  let draws := appealDraws.getD appeal []
  { createdAt := jGet appealCreatedAt appeal,
    fee := d.arbitrationFeePerJuror * draws.length,
    draws := draws,
    canRule := if isLastAppeal && !draws.isEmpty then L.canRuleDispute draws else false }

/-- One element of the `appealRulings` loop of `getDataForDispute`:
`canRepartition` is computed only for the last appeal and only under the JS
truthiness guard `session && period`; `canExecute` only for the last appeal. -/
def buildAppealRuling (L : LedgerView) (d : DisputeRec)
    (appealDeadlines : List (Option Nat)) (appealRuledAt : List (Option Nat))
    (appeal : Nat) : AppealRulingInfo :=
  let lastSession := d.firstSession + d.numberOfAppeals
  let isLastAppeal := d.firstSession + appeal == lastSession
  { voteCounter := d.voteCounters.get? appeal,
    deadline := jGet appealDeadlines appeal,
    ruledAt := jGet appealRuledAt appeal,
    ruling := L.currentRulingForDispute appeal,
    canRepartition :=
      if isLastAppeal && (!(L.session == 0) && !(L.period == 0)) then
        decide (lastSession ≤ L.session) && (L.period == PERIOD_EXECUTE) &&
          (d.state == STATE_OPEN)
      else false,
    canExecute := if isLastAppeal then d.state == STATE_EXECUTABLE else false }

/-- Embedding of `Disputes.getDataForDispute` (`resources/Disputes.js`): the
merged dispute view built from the ledger dispute record, current period and
session, arbitrable contract data and evidence, the party-A contract metadata
fetch (whose failure propagates), and the per-user store dispute data fetch
(whose failure is caught and replaced by empty defaults). -/
def getDataForDispute (arbitratorAddress : Address) (disputeId : Nat)
    (d : DisputeRec) (L : LedgerView) (arb : ArbitrableData) (evidence : List Nat)
    (contractStoreFetch : Except Unit (Option ContractRec))
    (userDataFetch : Except Unit StoreDispute) : Except Unit DisputeData :=
  match contractStoreFetch with
  | .error e => .error e
  | .ok contractStoreData =>
    let sd := storeDerivedOf userDataFetch
    let lastSession := d.firstSession + d.numberOfAppeals
    .ok {
      arbitrableContractAddress := d.arbitrableContractAddress,
      arbitrableContractStatus := arb.status,
      arbitratorAddress := arbitratorAddress,
      partyA := arb.partyA,
      partyB := arb.partyB,
      disputeId := disputeId,
      firstSession := d.firstSession,
      lastSession := lastSession,
      numberOfAppeals := d.numberOfAppeals,
      disputeState := d.state,
      disputeStatus := d.status,
      appealJuror := (List.range (d.numberOfAppeals + 1)).map
        (buildAppealJuror L d sd.appealDraws sd.appealCreatedAt),
      appealRulings := (List.range (d.numberOfAppeals + 1)).map
        (buildAppealRuling L d sd.appealDeadlines sd.appealRuledAt),
      description := contractStoreData.bind (fun c => c.description),
      email := contractStoreData.bind (fun c => c.email),
      evidence := evidence,
      netPNK := sd.netPNK,
      appealCreatedAt := sd.appealCreatedAt,
      appealDeadlines := sd.appealDeadlines,
      appealRuledAt := sd.appealRuledAt }

/-- C5: when the per-user store dispute data fetch for
`(arbitratorAddress, disputeId, account)` fails, `getDataForDispute` does not
fail: it behaves exactly as if the store had returned a record with no
appeal-round data, treats `appealDraws`, `appealCreatedAt`, `appealDeadlines`
and `appealRuledAt` as empty arrays and `netPNK` as zero, and still returns the
full merged view built from the ledger data. -/
theorem getDataForDispute_store_miss_defaults (arbitratorAddress : Address)
    (disputeId : Nat) (d : DisputeRec) (L : LedgerView) (arb : ArbitrableData)
    (evidence : List Nat) (c : Option ContractRec) (e : Unit) :
    getDataForDispute arbitratorAddress disputeId d L arb evidence (.ok c) (.error e) =
      getDataForDispute arbitratorAddress disputeId d L arb evidence (.ok c)
        (.ok ⟨arbitratorAddress, disputeId, none, none, none, none, none, none,
          none, none, none⟩) ∧
    (getDataForDispute arbitratorAddress disputeId d L arb evidence
      (.ok c) (.error e)).isOk = true ∧
    (∀ dd, getDataForDispute arbitratorAddress disputeId d L arb evidence
        (.ok c) (.error e) = .ok dd →
      dd.netPNK = 0 ∧ dd.appealCreatedAt = [] ∧ dd.appealDeadlines = [] ∧
      dd.appealRuledAt = [] ∧
      dd.arbitrableContractAddress = d.arbitrableContractAddress ∧
      dd.firstSession = d.firstSession ∧
      dd.lastSession = d.firstSession + d.numberOfAppeals ∧
      dd.numberOfAppeals = d.numberOfAppeals ∧
      dd.disputeState = d.state ∧ dd.disputeStatus = d.status ∧
      dd.partyA = arb.partyA ∧ dd.partyB = arb.partyB ∧
      dd.evidence = evidence ∧
      dd.appealJuror.length = d.numberOfAppeals + 1 ∧
      dd.appealRulings.length = d.numberOfAppeals + 1)  := by
  refine ⟨rfl, rfl, ?_⟩
  intro dd h
  simp only [getDataForDispute] at h
  injection h with h
  subst h
  simp [storeDerivedOf]

/-- C5 witness: a concrete dispute whose store data is missing still produces
the merged view with zero `netPNK`. -/
theorem getDataForDispute_store_miss_defaults_witness :
    getDataForDispute "a" 0 ⟨"c", 10, 1, 0, 0, 7, [3, 4]⟩
        ⟨4, 11, fun _ => 1, fun _ => true⟩ ⟨"pa", "pb", 0⟩ [] (.ok none) (.error ()) =
      getDataForDispute "a" 0 ⟨"c", 10, 1, 0, 0, 7, [3, 4]⟩
        ⟨4, 11, fun _ => 1, fun _ => true⟩ ⟨"pa", "pb", 0⟩ [] (.ok none)
        (.ok ⟨"a", 0, none, none, none, none, none, none, none, none, none⟩) ∧
    ((getDataForDispute "a" 0 ⟨"c", 10, 1, 0, 0, 7, [3, 4]⟩
        ⟨4, 11, fun _ => 1, fun _ => true⟩ ⟨"pa", "pb", 0⟩ [] (.ok none)
        (.error ())).map (fun dd => dd.netPNK)) = .ok 0 := by
  have h := getDataForDispute_store_miss_defaults "a" 0 ⟨"c", 10, 1, 0, 0, 7, [3, 4]⟩
    ⟨4, 11, fun _ => 1, fun _ => true⟩ ⟨"pa", "pb", 0⟩ [] none ()
  exact ⟨h.1, by decide⟩

/-- C3, counterexample to the claim as stated: with current session `0` the JS
truthiness guard `session && period` is false, so for a dispute whose last
round satisfies the claimed condition (`lastSession ≤ currentSession`, period
Execute, state Open) the computed `canRepartition` is still `false`. -/
theorem getDataForDispute_canRepartition_guard_counterexample :
    ((getDataForDispute "a" 5 ⟨"c", 0, 0, STATE_OPEN, 0, 0, []⟩
        ⟨PERIOD_EXECUTE, 0, fun _ => 0, fun _ => false⟩ ⟨"pa", "pb", 0⟩ []
        (.ok none) (.error ())).map
      (fun dd =>
        (dd.appealRulings.getD 0 ⟨none, none, none, 0, true, true⟩).canRepartition)) =
      .ok false ∧
    ((0 : Nat) + 0 ≤ 0 ∧ PERIOD_EXECUTE = PERIOD_EXECUTE ∧
      STATE_OPEN = STATE_OPEN) := by
  exact ⟨by decide, by decide⟩

/-- C3 (amended): in the merged view's `appealJuror` and `appealRulings`
sequences (indexed `0..numberOfAppeals`), every round `r < numberOfAppeals`
reports `canRule = false`, `canRepartition = false` and `canExecute = false`;
only the last round computes `canRepartition`, true iff the current session is
nonzero (the JS `session && period` truthiness guard) and
`lastSession ≤ currentSession` and the period is Execute and the dispute state
is Open; the last round's `canExecute` is `state == Executable`; and the
ledger `canRuleDispute` oracle is consulted only when the last round's stored
draws are non-empty — with empty draws the whole view is independent of it. -/
theorem getDataForDispute_rounds (arbitratorAddress : Address) (disputeId : Nat)
    (d : DisputeRec) (L : LedgerView) (arb : ArbitrableData) (evidence : List Nat)
    (c : Option ContractRec) (uf : Except Unit StoreDispute) (r : Nat) :
    ((getDataForDispute arbitratorAddress disputeId d L arb evidence (.ok c) uf).map
      (fun dd => (dd.appealJuror.length, dd.appealRulings.length))) =
      .ok (d.numberOfAppeals + 1, d.numberOfAppeals + 1) ∧
    (r < d.numberOfAppeals →
      ((getDataForDispute arbitratorAddress disputeId d L arb evidence (.ok c) uf).map
        (fun dd =>
          ((dd.appealJuror.getD r ⟨none, 0, [], true⟩).canRule,
           (dd.appealRulings.getD r ⟨none, none, none, 0, true, true⟩).canRepartition,
           (dd.appealRulings.getD r ⟨none, none, none, 0, true, true⟩).canExecute))) =
        .ok (false, false, false)) ∧
    ((getDataForDispute arbitratorAddress disputeId d L arb evidence (.ok c) uf).map
      (fun dd =>
        (dd.appealRulings.getD d.numberOfAppeals
          ⟨none, none, none, 0, true, true⟩).canRepartition)) =
      .ok (decide (L.session ≠ 0) &&
        (decide (d.firstSession + d.numberOfAppeals ≤ L.session) &&
          ((L.period == PERIOD_EXECUTE) && (d.state == STATE_OPEN)))) ∧
    ((getDataForDispute arbitratorAddress disputeId d L arb evidence (.ok c) uf).map
      (fun dd =>
        (dd.appealRulings.getD d.numberOfAppeals
          ⟨none, none, none, 0, true, true⟩).canExecute)) =
      .ok (d.state == STATE_EXECUTABLE) ∧
    ((getDataForDispute arbitratorAddress disputeId d L arb evidence (.ok c) uf).map
      (fun dd =>
        (dd.appealJuror.getD d.numberOfAppeals ⟨none, 0, [], true⟩).canRule)) =
      .ok (if ((storeDerivedOf uf).appealDraws.getD d.numberOfAppeals []).isEmpty
        then false
        else L.canRuleDispute ((storeDerivedOf uf).appealDraws.getD d.numberOfAppeals [])) ∧
    ((storeDerivedOf uf).appealDraws.getD d.numberOfAppeals [] = [] →
      ∀ f g : List Nat → Bool,
        getDataForDispute arbitratorAddress disputeId d
          { L with canRuleDispute := f } arb evidence (.ok c) uf =
        getDataForDispute arbitratorAddress disputeId d
          { L with canRuleDispute := g } arb evidence (.ok c) uf) := by
  have hgetJ : ∀ (k : Nat), k < d.numberOfAppeals + 1 → ∀ ds ca,
      (((List.range (d.numberOfAppeals + 1)).map
        (buildAppealJuror L d ds ca)).getD k ⟨none, 0, [], true⟩) =
        buildAppealJuror L d ds ca k := by
    intro k hk ds ca
    simp [List.getD_eq_getElem?_getD, List.getElem?_range, hk]
  have hgetR : ∀ (k : Nat), k < d.numberOfAppeals + 1 → ∀ dl ra (LV : LedgerView),
      (((List.range (d.numberOfAppeals + 1)).map
        (buildAppealRuling LV d dl ra)).getD k ⟨none, none, none, 0, true, true⟩) =
        buildAppealRuling LV d dl ra k := by
    intro k hk dl ra LV
    simp [List.getD_eq_getElem?_getD, List.getElem?_range, hk]
  refine ⟨?_, fun hr => ?_, ?_, ?_, ?_, fun hdraws f g => ?_⟩
  · simp [getDataForDispute, Except.map]
  · have hne : (d.firstSession + r == d.firstSession + d.numberOfAppeals) = false := by
      simp only [beq_eq_false_iff_ne]
      omega
    simp only [getDataForDispute, Except.map]
    rw [hgetJ r (by omega), hgetR r (by omega)]
    simp [buildAppealJuror, buildAppealRuling, hne]
  · simp only [getDataForDispute, Except.map]
    rw [hgetR d.numberOfAppeals (by omega)]
    simp only [buildAppealRuling, beq_self_eq_true, Bool.true_and]
    congr 1
    cases hs : L.session == 0 <;> cases hp : L.period == 0 <;>
      simp_all [PERIOD_EXECUTE, Bool.and_assoc]
  · simp only [getDataForDispute, Except.map]
    rw [hgetR d.numberOfAppeals (by omega)]
    simp [buildAppealRuling]
  · simp only [getDataForDispute, Except.map]
    rw [hgetJ d.numberOfAppeals (by omega)]
    simp [buildAppealJuror]
  · simp only [getDataForDispute]
    congr 2
    apply List.map_congr_left
    intro k hk
    simp only [List.mem_range] at hk
    simp only [buildAppealJuror]
    congr 1
    rcases Nat.lt_or_ge k d.numberOfAppeals with hlt | hge
    · have hne : (d.firstSession + k == d.firstSession + d.numberOfAppeals) = false := by
        simp only [beq_eq_false_iff_ne]
        omega
      simp [hne]
    · have hk2 : k = d.numberOfAppeals := by omega
      subst hk2
      rw [List.getD_eq_getElem?_getD] at hdraws
      simp [hdraws]

/-- C3 witness: the spec scenario — `firstSession = 10`, `numberOfAppeals = 1`
gives `lastSession = 11`; round 0 is not last and reports all-false; round 1 is
last and computes `canRepartition` (true at session 11, period Execute, state
Open) and `canExecute`. -/
theorem getDataForDispute_rounds_witness :
    ((getDataForDispute "a" 5 ⟨"c", 10, 1, STATE_OPEN, 0, 7, [2, 3]⟩
        ⟨PERIOD_EXECUTE, 11, fun _ => 1, fun _ => true⟩ ⟨"pa", "pb", 0⟩ []
        (.ok none) (.error ())).map
      (fun dd =>
        ((dd.appealJuror.getD 0 ⟨none, 0, [], true⟩).canRule,
         (dd.appealRulings.getD 0 ⟨none, none, none, 0, true, true⟩).canRepartition,
         (dd.appealRulings.getD 0 ⟨none, none, none, 0, true, true⟩).canExecute))) =
      .ok (false, false, false) ∧
    ((getDataForDispute "a" 5 ⟨"c", 10, 1, STATE_OPEN, 0, 7, [2, 3]⟩
        ⟨PERIOD_EXECUTE, 11, fun _ => 1, fun _ => true⟩ ⟨"pa", "pb", 0⟩ []
        (.ok none) (.error ())).map
      (fun dd =>
        (dd.appealRulings.getD 1 ⟨none, none, none, 0, true, true⟩).canRepartition)) =
      .ok true := by
  have h := getDataForDispute_rounds "a" 5 ⟨"c", 10, 1, STATE_OPEN, 0, 7, [2, 3]⟩
    ⟨PERIOD_EXECUTE, 11, fun _ => 1, fun _ => true⟩ ⟨"pa", "pb", 0⟩ []
    none (.error ()) 0
  refine ⟨h.2.1 (by decide), ?_⟩
  have h3 := h.2.2.1
  exact h3.trans (by decide)

-- **************************** --
-- * Store dispute records     * --
-- **************************** --

/-- The `(arbitratorAddress, disputeId)` key test for store dispute records. -/
def isDisputeKey (a : Address) (id : Nat) (r : StoreDispute) : Bool :=
  r.arbitratorAddress == a && r.disputeId == id

/-- Modelled from the spec: the store `getDispute` read (endpoint and wrapper
method not under `src/`) — the shared dispute record keyed by
`(arbitratorAddress, disputeId)`, `null` when absent. -/
def getStoreDispute (store : List StoreDispute) (a : Address) (id : Nat) :
    Option StoreDispute :=
  store.find? (isDisputeKey a id)

/-- Partial fields of a store `updateDispute` write. -/
structure StoreDisputeParams where
  contractAddress : Option Address
  partyA : Option Address
  partyB : Option Address
  status : Option Nat
  appealCreatedAt : Option (List (Option Nat))
  appealDeadlines : Option (List (Option Nat))
  appealRuledAt : Option (List (Option Nat))
deriving DecidableEq

/-- Shallow merge of supplied `updateDispute` fields over a record (supplied
fields win; the key fields and the fields no write supplies are retained). -/
def mergeStoreDispute (r : StoreDispute) (p : StoreDisputeParams) : StoreDispute :=
  { r with
    contractAddress :=
      match p.contractAddress with | some v => some v | none => r.contractAddress,
    partyA := match p.partyA with | some v => some v | none => r.partyA,
    partyB := match p.partyB with | some v => some v | none => r.partyB,
    status := match p.status with | some v => some v | none => r.status,
    appealCreatedAt :=
      match p.appealCreatedAt with | some v => some v | none => r.appealCreatedAt,
    appealDeadlines :=
      match p.appealDeadlines with | some v => some v | none => r.appealDeadlines,
    appealRuledAt :=
      match p.appealRuledAt with | some v => some v | none => r.appealRuledAt }

/-- A fresh store dispute record holding only its key. -/
def emptyStoreDispute (a : Address) (id : Nat) : StoreDispute :=
  ⟨a, id, none, none, none, none, none, none, none, none, none⟩

/-- Modelled from the spec: the store `updateDispute` write (endpoint and
wrapper method not under `src/`) — an idempotent upsert merging the supplied
fields into the shared record keyed by `(arbitratorAddress, disputeId)`,
creating the record when absent. -/
def updateStoreDispute (store : List StoreDispute) (a : Address) (id : Nat)
    (p : StoreDisputeParams) : List StoreDispute :=
  if (store.find? (isDisputeKey a id)).isSome then
    store.map (fun r => if isDisputeKey a id r then mergeStoreDispute r p else r)
  else
    store ++ [mergeStoreDispute (emptyStoreDispute a id) p]

/-- Modelled from the spec: the per-user `getDisputeData` read used by
`getDataForDispute` (wrapper method not under `src/`) — it fails for disputes
not yet in the store, and otherwise returns the record's appeal-round fields
(mirrored from the shared record). -/
def fetchDisputeData (store : List StoreDispute) (a : Address) (id : Nat) :
    Except Unit StoreDispute :=
  match getStoreDispute store a id with
  | some r => .ok r
  | none => .error ()

theorem isDisputeKey_mergeStoreDispute (a : Address) (id : Nat)
    (r : StoreDispute) (p : StoreDisputeParams) :
    isDisputeKey a id (mergeStoreDispute r p) = isDisputeKey a id r := rfl

theorem isDisputeKey_emptyStoreDispute (a : Address) (id : Nat) :
    isDisputeKey a id (emptyStoreDispute a id) = true := by
  simp [isDisputeKey, emptyStoreDispute]

theorem getStoreDispute_updateStoreDispute_ne_none (store : List StoreDispute)
    (a : Address) (id : Nat) (p : StoreDisputeParams) :
    getStoreDispute (updateStoreDispute store a id p) a id ≠ none := by
  unfold getStoreDispute updateStoreDispute
  split
  next hs =>
    rw [Ne, List.find?_eq_none]
    intro hall
    rw [List.find?_isSome] at hs
    obtain ⟨x, hx, hpx⟩ := hs
    have hmem := List.mem_map_of_mem
      (fun r => if isDisputeKey a id r then mergeStoreDispute r p else r) hx
    have hk2 : isDisputeKey a id
        (if isDisputeKey a id x then mergeStoreDispute x p else x) = true := by
      rw [if_pos hpx, isDisputeKey_mergeStoreDispute]
      exact hpx
    exact absurd hk2 (by simpa using hall _ hmem)
  next hs =>
    rw [Ne, List.find?_eq_none]
    intro hall
    have hmem : mergeStoreDispute (emptyStoreDispute a id) p ∈
        store ++ [mergeStoreDispute (emptyStoreDispute a id) p] := by simp
    have hk2 : isDisputeKey a id (mergeStoreDispute (emptyStoreDispute a id) p) = true := by
      rw [isDisputeKey_mergeStoreDispute]
      exact isDisputeKey_emptyStoreDispute a id
    exact absurd hk2 (by simpa using hall _ hmem)

-- **************************** --
-- * Event handlers            * --
-- **************************** --

/-- The per-event environment of the dispute event handlers: the ledger data
and fetch results that are independent of the store state. -/
structure EventEnv where
  d : DisputeRec
  L : LedgerView
  arb : ArbitrableData
  evidence : List Nat
  contractStoreFetch : Except Unit (Option ContractRec)
  blockTimestamp : Nat
  deadlineVal : Nat

/-- Embedding of `Disputes._storeNewDisputeHandler`: on a `DisputeCreation`
event, read the store record keyed by `(arbitratorAddress, disputeId)`; when
it already exists perform no store write; otherwise build the merged dispute
view, set `appealCreatedAt[numberOfAppeals]` to the event block's timestamp in
milliseconds, and upsert the store record. (The source writes
`status: disputeData.status`, a field the merged view does not define — its
defined field is `disputeStatus` — so the written `status` is `undefined`.) -/
def storeNewDisputeHandler (env : EventEnv) (arbitratorAddress : Address)
    (disputeId : Nat) (store : List StoreDispute) :
    Except Unit (List StoreDispute) :=
  match getStoreDispute store arbitratorAddress disputeId with
  | some _ => .ok store
  | none =>
    match getDataForDispute arbitratorAddress disputeId env.d env.L env.arb
        env.evidence env.contractStoreFetch
        (fetchDisputeData store arbitratorAddress disputeId) with
    | .error e => .error e
    | .ok dd =>
      .ok (updateStoreDispute store arbitratorAddress disputeId
        { contractAddress := some dd.arbitrableContractAddress,
          partyA := some env.arb.partyA,
          partyB := some env.arb.partyB,
          status := none,
          appealCreatedAt := some (jSet dd.appealCreatedAt dd.numberOfAppeals
            (env.blockTimestamp * 1000)),
          appealDeadlines := none,
          appealRuledAt := none })

/-- C1: the dispute-creation handler first checks the store for a record keyed
by `(arbitratorAddress, disputeId)` and writes only when it is absent, so
delivering the same event twice is the same as delivering it once (re-delivery
after the record exists is a no-op), and a store holding at most one record for
the key holds exactly one afterwards. -/
theorem storeNewDisputeHandler_idempotent (env : EventEnv) (a : Address)
    (id : Nat) (store : List StoreDispute) :
    ((storeNewDisputeHandler env a id store).bind (storeNewDisputeHandler env a id) =
      storeNewDisputeHandler env a id store) ∧
    (store.countP (isDisputeKey a id) ≤ 1 →
      ∀ s2, storeNewDisputeHandler env a id store = .ok s2 →
        s2.countP (isDisputeKey a id) = 1) := by
  constructor
  · cases hfind : getStoreDispute store a id with
    | some r =>
      simp only [storeNewDisputeHandler, hfind, Except.bind]
    | none =>
      cases hgd : getDataForDispute a id env.d env.L env.arb env.evidence
          env.contractStoreFetch (fetchDisputeData store a id) with
      | error e => simp only [storeNewDisputeHandler, hfind, hgd, Except.bind]
      | ok dd =>
        simp only [storeNewDisputeHandler, hfind, hgd, Except.bind]
        cases h2 : getStoreDispute (updateStoreDispute store a id
            { contractAddress := some dd.arbitrableContractAddress,
              partyA := some env.arb.partyA,
              partyB := some env.arb.partyB,
              status := none,
              appealCreatedAt := some (jSet dd.appealCreatedAt dd.numberOfAppeals
                (env.blockTimestamp * 1000)),
              appealDeadlines := none,
              appealRuledAt := none }) a id with
        | some _ => rfl
        | none => exact absurd h2 (getStoreDispute_updateStoreDispute_ne_none _ _ _ _)
  · intro hle s2 h2
    cases hfind : getStoreDispute store a id with
    | some r =>
      have hs2 : store = s2 := by
        simp only [storeNewDisputeHandler, hfind] at h2
        exact Except.ok.inj h2
      subst hs2
      have hpos : 0 < store.countP (isDisputeKey a id) := by
        rw [List.countP_pos_iff]
        exact ⟨r, List.mem_of_find?_eq_some hfind, List.find?_some hfind⟩
      omega
    | none =>
      cases hgd : getDataForDispute a id env.d env.L env.arb env.evidence
          env.contractStoreFetch (fetchDisputeData store a id) with
      | error e =>
        simp only [storeNewDisputeHandler, hfind, hgd] at h2
        exact absurd h2 (by simp)
      | ok dd =>
        simp only [storeNewDisputeHandler, hfind, hgd] at h2
        have hs2 := (Except.ok.inj h2).symm
        subst hs2
        have hzero : store.countP (isDisputeKey a id) = 0 := by
          rw [List.countP_eq_zero]
          intro x hx
          have hnk := List.find?_eq_none.mp hfind x hx
          simpa using hnk
        unfold updateStoreDispute
        rw [if_neg (by unfold getStoreDispute at hfind; simp [hfind])]
        rw [List.countP_append, hzero]
        simp [List.countP_cons, isDisputeKey_mergeStoreDispute,
          isDisputeKey_emptyStoreDispute]

/-- C1 witness: delivering a creation event to an empty store yields exactly
one record for the key. -/
theorem storeNewDisputeHandler_idempotent_witness :
    ((storeNewDisputeHandler
        ⟨⟨"c", 10, 0, 0, 0, 7, [3]⟩, ⟨4, 10, fun _ => 1, fun _ => true⟩,
          ⟨"pa", "pb", 0⟩, [], .ok none, 99, 0⟩ "a" 0 []).map
      (fun s => s.countP (isDisputeKey "a" 0))) = .ok 1 := by
  have h := (storeNewDisputeHandler_idempotent
    ⟨⟨"c", 10, 0, 0, 0, 7, [3]⟩, ⟨4, 10, fun _ => 1, fun _ => true⟩,
      ⟨"pa", "pb", 0⟩, [], .ok none, 99, 0⟩ "a" 0 []).2 (by decide)
  cases heq : storeNewDisputeHandler
      ⟨⟨"c", 10, 0, 0, 0, 7, [3]⟩, ⟨4, 10, fun _ => 1, fun _ => true⟩,
        ⟨"pa", "pb", 0⟩, [], .ok none, 99, 0⟩ "a" 0 [] with
  | error e =>
    have hok : (storeNewDisputeHandler
        ⟨⟨"c", 10, 0, 0, 0, 7, [3]⟩, ⟨4, 10, fun _ => 1, fun _ => true⟩,
          ⟨"pa", "pb", 0⟩, [], .ok none, 99, 0⟩ "a" 0 []).isOk = true := by decide
    rw [heq] at hok
    exact absurd hok (by simp [Except.isOk, Except.toBool])
  | ok s2 =>
    have hc := h s2 heq
    simp [heq, Except.map, hc]

-- **************************** --
-- * Token shift handler (C4)  * --
-- **************************** --

/-- The empty user profile `setUpUserProfile` creates for a new address. -/
def emptyUserProfile (a : Address) : UserProfile :=
  ⟨a, none, none, [], []⟩

/-- Partial fields of an `updateDisputeProfile` write at the typed level. -/
structure DisputeProfileParams where
  netPNK : Option Int
  appealDraws : Option (List (List Nat))
  appealCreatedAt : Option (List (Option Nat))
  appealDeadlines : Option (List (Option Nat))
  appealRuledAt : Option (List (Option Nat))
deriving DecidableEq

/-- The `(arbitratorAddress, disputeId)` key test used by
`updateDisputeProfile`. -/
def isProfileKey (arb : Address) (id : Nat) (r : DisputeProfileRec) : Bool :=
  r.arbitratorAddress == arb && r.disputeId == id

/-- Shallow merge of supplied `updateDisputeProfile` fields over a dispute
profile (supplied fields win). -/
def mergeDisputeProfile (r : DisputeProfileRec) (p : DisputeProfileParams) :
    DisputeProfileRec :=
  { r with
    netPNK := match p.netPNK with | some v => some v | none => r.netPNK,
    appealDraws := match p.appealDraws with | some v => some v | none => r.appealDraws,
    appealCreatedAt :=
      match p.appealCreatedAt with | some v => some v | none => r.appealCreatedAt,
    appealDeadlines :=
      match p.appealDeadlines with | some v => some v | none => r.appealDeadlines,
    appealRuledAt :=
      match p.appealRuledAt with | some v => some v | none => r.appealRuledAt }

/-- Embedding of `StoreProviderWrapper.updateDisputeProfile` at the typed store
level: read the user profile, take the dispute profile matching
`(arbitratorAddress, disputeId)` (or an empty one), force the key fields,
shallow-merge the supplied fields over it, and write the merged record; the
store's keyed upsert of the written record into the profile's dispute
collection is modelled from the spec (the store service is external). -/
def updateDisputeProfileMerged (prof : UserProfile) (arb : Address) (id : Nat)
    (p : DisputeProfileParams) : DisputeProfileRec :=
  mergeDisputeProfile
    { (((prof.disputes.filter (isProfileKey arb id)).head?).getD
        ⟨arb, id, none, none, none, none, none⟩) with
      arbitratorAddress := arb, disputeId := id } p

def updateDisputeProfileT (prof : UserProfile) (arb : Address) (id : Nat)
    (p : DisputeProfileParams) : UserProfile :=
  { prof with disputes :=
      if prof.disputes.any (isProfileKey arb id) then
        prof.disputes.map (fun r =>
          if isProfileKey arb id r then updateDisputeProfileMerged prof arb id p
          else r)
      else prof.disputes ++ [updateDisputeProfileMerged prof arb id p] }

/-- A `TokenShift` ledger event: `_disputeID`, `_account`, signed `_amount`. -/
structure TokenShiftEvent where
  disputeId : Nat
  account : Address
  amount : Int
deriving DecidableEq

/-- The `(disputeId, arbitratorAddress)` lookup used by
`_storeTokensMovedForJuror`. -/
def tokenShiftKey (disputeId : Nat) (contractAddress : Address)
    (x : DisputeProfileRec) : Bool :=
  x.disputeId == disputeId && x.arbitratorAddress == contractAddress

/-- Embedding of `Disputes._storeTokensMovedForJuror`: on a `TokenShift` event
for the bound account, set up the user profile (creating an empty one when
absent), locate the user's dispute profile by
`(disputeId, arbitratorAddress)`; when absent, ignore the event; otherwise add
the signed shift amount to the stored `netPNK`. -/
def storeTokensMovedForJuror (contractAddress : Address) (ev : TokenShiftEvent)
    (account : Address) (profile : Option UserProfile) : Option UserProfile :=
  if ev.account == account then
    let p := profile.getD (emptyUserProfile account)
    match p.disputes.find? (tokenShiftKey ev.disputeId contractAddress) with
    | none => some p
    | some dispute =>
      some (updateDisputeProfileT p dispute.arbitratorAddress dispute.disputeId
        ⟨some (dispute.netPNK.getD 0 + ev.amount), none, none, none, none⟩)
  else profile

theorem filter_head?_eq_find? (p : α → Bool) (l : List α) :
    (l.filter p).head? = l.find? p := by
  induction l with
  | nil => rfl
  | cons a t ih =>
    cases h : p a <;> simp [List.filter_cons, List.find?_cons, h, ih]

theorem find?_map_of_pres (f : α → α) (p : α → Bool) (l : List α)
    (hpres : ∀ x, p (f x) = p x) :
    (l.map f).find? p = (l.find? p).map f := by
  induction l with
  | nil => rfl
  | cons a t ih =>
    cases h : p a <;>
      simp [List.map_cons, List.find?_cons, hpres a, h, ih]

theorem filter_not_map_update (pr : α → Bool) (f : α → α) (l : List α)
    (hf : ∀ x, pr x = false → f x = x) (hp : ∀ x, pr (f x) = pr x) :
    (l.map f).filter (fun x => !pr x) = l.filter (fun x => !pr x) := by
  induction l with
  | nil => rfl
  | cons a t ih =>
    cases h : pr a with
    | false => simp [List.filter_cons, hp a, h, hf a h, ih]
    | true => simp [List.filter_cons, hp a, h, ih]

/-- The store effect of one `TokenShift` delivery for a tracked dispute: the
matching profile's `netPNK` becomes its old value (default 0) plus the signed
amount, in place. -/
theorem storeTokensMovedForJuror_tracked (contractAddress : Address)
    (disputeId : Nat) (amount : Int) (account : Address)
    (profile : Option UserProfile) (r : DisputeProfileRec)
    (hfind : (profile.getD (emptyUserProfile account)).disputes.find?
      (tokenShiftKey disputeId contractAddress) = some r) :
    storeTokensMovedForJuror contractAddress ⟨disputeId, account, amount⟩ account
        profile =
      some { profile.getD (emptyUserProfile account) with
        disputes := (profile.getD (emptyUserProfile account)).disputes.map
          (fun x => if tokenShiftKey disputeId contractAddress x then
            { r with netPNK := some (r.netPNK.getD 0 + amount) } else x) } := by
  have hkeyb := List.find?_some hfind
  rw [tokenShiftKey, Bool.and_eq_true] at hkeyb
  obtain ⟨h1, h2⟩ := hkeyb
  rw [beq_iff_eq] at h1 h2
  have hmem := List.mem_of_find?_eq_some hfind
  have hfn : isProfileKey r.arbitratorAddress r.disputeId =
      tokenShiftKey disputeId contractAddress := by
    funext x
    rw [isProfileKey, tokenShiftKey, h1, h2, Bool.and_comm]
  have hany : (profile.getD (emptyUserProfile account)).disputes.any
      (isProfileKey r.arbitratorAddress r.disputeId) = true := by
    rw [List.any_eq_true]
    exact ⟨r, hmem, by simp [isProfileKey]⟩
  have hcur : ((profile.getD (emptyUserProfile account)).disputes.filter
      (isProfileKey r.arbitratorAddress r.disputeId)).head? = some r := by
    rw [hfn, filter_head?_eq_find?]
    exact hfind
  have hmerged : updateDisputeProfileMerged (profile.getD (emptyUserProfile account))
      r.arbitratorAddress r.disputeId
      ⟨some (r.netPNK.getD 0 + amount), none, none, none, none⟩ =
      { r with netPNK := some (r.netPNK.getD 0 + amount) } := by
    rw [updateDisputeProfileMerged, hcur]
    rfl
  show (if (account == account) = true then _ else _) = _
  rw [if_pos (by simp)]
  show (match (profile.getD (emptyUserProfile account)).disputes.find?
      (tokenShiftKey disputeId contractAddress) with
    | none => some (profile.getD (emptyUserProfile account))
    | some dispute =>
      some (updateDisputeProfileT (profile.getD (emptyUserProfile account))
        dispute.arbitratorAddress dispute.disputeId
        ⟨some (dispute.netPNK.getD 0 + amount), none, none, none, none⟩)) = _
  rw [hfind]
  show some (updateDisputeProfileT (profile.getD (emptyUserProfile account))
      r.arbitratorAddress r.disputeId
      ⟨some (r.netPNK.getD 0 + amount), none, none, none, none⟩) = _
  unfold updateDisputeProfileT
  rw [if_pos hany]
  simp only [hmerged, hfn]

/-- One tracked `TokenShift` delivery: the resulting profile exists, its
matching dispute profile has `netPNK` increased by the amount, and the
collection's length and non-matching profiles are unchanged. -/
theorem storeTokensMovedForJuror_step (contractAddress : Address)
    (disputeId : Nat) (amount : Int) (account : Address)
    (profile : Option UserProfile) (r : DisputeProfileRec)
    (hfind : (profile.getD (emptyUserProfile account)).disputes.find?
      (tokenShiftKey disputeId contractAddress) = some r) :
    ∃ q, storeTokensMovedForJuror contractAddress ⟨disputeId, account, amount⟩
        account profile = some q ∧
      q.disputes.find? (tokenShiftKey disputeId contractAddress) =
        some { r with netPNK := some (r.netPNK.getD 0 + amount) } ∧
      q.disputes.length =
        (profile.getD (emptyUserProfile account)).disputes.length ∧
      q.disputes.filter (fun x => !tokenShiftKey disputeId contractAddress x) =
        (profile.getD (emptyUserProfile account)).disputes.filter
          (fun x => !tokenShiftKey disputeId contractAddress x) := by
  have hkey := List.find?_some hfind
  rw [tokenShiftKey, Bool.and_eq_true] at hkey
  have hpres : ∀ x, tokenShiftKey disputeId contractAddress
      (if tokenShiftKey disputeId contractAddress x then
        { r with netPNK := some (r.netPNK.getD 0 + amount) } else x) =
      tokenShiftKey disputeId contractAddress x := by
    intro x
    cases hx : tokenShiftKey disputeId contractAddress x with
    | false =>
      rw [if_neg (by simp [hx])]
      exact hx
    | true =>
      rw [if_pos (by simp [hx])]
      show (tokenShiftKey disputeId contractAddress r) = true
      rw [tokenShiftKey, Bool.and_eq_true]
      exact hkey
  have h1 := storeTokensMovedForJuror_tracked contractAddress disputeId amount
    account profile r hfind
  refine ⟨_, h1, ?_, ?_, ?_⟩
  · show (List.map _ _).find? _ = _
    rw [find?_map_of_pres _ _ _ hpres, hfind]
    simp only [Option.map_some']
    rw [if_pos (by rw [tokenShiftKey, Bool.and_eq_true]; exact hkey)]
  · simp
  · exact filter_not_map_update _ _ _
      (fun x hx => by rw [if_neg (by simp [hx])]) hpres

/-- C4: on a `TokenShift` event whose account equals the bound account — if
the user's profile contains a dispute profile keyed by
`(disputeId, arbitratorAddress)`, the handler adds the signed shift amount to
that profile's `netPNK` while the dispute collection's length and every
non-matching profile are unchanged, and successive amounts `a1, a2, a3`
starting from stored `netPNK` `v` accumulate to `v + a1 + a2 + a3`; if no such
dispute profile exists, the event is ignored and no dispute profile is
created. -/
theorem storeTokensMovedForJuror_netPNK (contractAddress account : Address)
    (profile : Option UserProfile) (disputeId : Nat) (a1 a2 a3 : Int)
    (r : DisputeProfileRec) :
    ((profile.getD (emptyUserProfile account)).disputes.find?
        (tokenShiftKey disputeId contractAddress) = none →
      storeTokensMovedForJuror contractAddress ⟨disputeId, account, a1⟩ account
        profile = some (profile.getD (emptyUserProfile account))) ∧
    ((profile.getD (emptyUserProfile account)).disputes.find?
        (tokenShiftKey disputeId contractAddress) = some r →
      ((storeTokensMovedForJuror contractAddress ⟨disputeId, account, a1⟩ account
          profile).map (fun q => q.disputes.length)) =
        some (profile.getD (emptyUserProfile account)).disputes.length ∧
      ((storeTokensMovedForJuror contractAddress ⟨disputeId, account, a1⟩ account
          profile).bind
        (fun q => q.disputes.find? (tokenShiftKey disputeId contractAddress))) =
        some { r with netPNK := some (r.netPNK.getD 0 + a1) } ∧
      ((storeTokensMovedForJuror contractAddress ⟨disputeId, account, a1⟩ account
          profile).map
        (fun q => q.disputes.filter
          (fun x => !tokenShiftKey disputeId contractAddress x))) =
        some ((profile.getD (emptyUserProfile account)).disputes.filter
          (fun x => !tokenShiftKey disputeId contractAddress x)) ∧
      ((storeTokensMovedForJuror contractAddress ⟨disputeId, account, a3⟩ account
          (storeTokensMovedForJuror contractAddress ⟨disputeId, account, a2⟩ account
            (storeTokensMovedForJuror contractAddress ⟨disputeId, account, a1⟩
              account profile))).bind
        (fun q => (q.disputes.find?
          (tokenShiftKey disputeId contractAddress)).map (fun x => x.netPNK))) =
        some (some (r.netPNK.getD 0 + a1 + a2 + a3))) := by
  constructor
  · intro hfind
    show (if (account == account) = true then _ else _) = _
    rw [if_pos (by simp)]
    show (match (profile.getD (emptyUserProfile account)).disputes.find?
        (tokenShiftKey disputeId contractAddress) with
      | none => some (profile.getD (emptyUserProfile account))
      | some dispute =>
        some (updateDisputeProfileT (profile.getD (emptyUserProfile account))
          dispute.arbitratorAddress dispute.disputeId
          ⟨some (dispute.netPNK.getD 0 + a1), none, none, none, none⟩)) = _
    rw [hfind]
  · intro hfind
    obtain ⟨q1, hS1, hf1, hlen1, hfil1⟩ :=
      storeTokensMovedForJuror_step contractAddress disputeId a1 account profile
        r hfind
    refine ⟨?_, ?_, ?_, ?_⟩
    · rw [hS1]
      simp [hlen1]
    · rw [hS1]
      simpa using hf1
    · rw [hS1]
      simpa using hfil1
    · obtain ⟨q2, hS2, hf2, hlen2, hfil2⟩ :=
        storeTokensMovedForJuror_step contractAddress disputeId a2 account
          (some q1) _ (by simpa using hf1)
      obtain ⟨q3, hS3, hf3, hlen3, hfil3⟩ :=
        storeTokensMovedForJuror_step contractAddress disputeId a3 account
          (some q2) _ (by simpa using hf2)
      rw [hS1, hS2, hS3]
      show (q3.disputes.find? (tokenShiftKey disputeId contractAddress)).map
        (fun x => x.netPNK) = _
      rw [hf3]
      simp only [Option.map_some', Option.some.injEq]
      simp

/-- C4 witness: amounts `+10, -3, +5` applied to a tracked dispute with prior
`netPNK = 0` yield `netPNK = 12`; an event for an untracked dispute is
ignored. -/
theorem storeTokensMovedForJuror_netPNK_witness :
    ((storeTokensMovedForJuror "arb" ⟨7, "me", 5⟩ "me"
        (storeTokensMovedForJuror "arb" ⟨7, "me", -3⟩ "me"
          (storeTokensMovedForJuror "arb" ⟨7, "me", 10⟩ "me"
            (some ⟨"me", none, none, [],
              [⟨"arb", 7, some 0, none, none, none, none⟩]⟩)))).bind
      (fun q => (q.disputes.find? (tokenShiftKey 7 "arb")).map
        (fun x => x.netPNK))) = some (some 12) ∧
    storeTokensMovedForJuror "arb" ⟨9, "me", 10⟩ "me"
      (some ⟨"me", none, none, [], [⟨"arb", 7, some 0, none, none, none, none⟩]⟩) =
      some ⟨"me", none, none, [], [⟨"arb", 7, some 0, none, none, none, none⟩]⟩ := by
  have h := storeTokensMovedForJuror_netPNK "arb" "me"
    (some ⟨"me", none, none, [], [⟨"arb", 7, some 0, none, none, none, none⟩]⟩)
    7 10 (-3) 5 ⟨"arb", 7, some 0, none, none, none, none⟩
  have h9 := storeTokensMovedForJuror_netPNK "arb" "me"
    (some ⟨"me", none, none, [], [⟨"arb", 7, some 0, none, none, none, none⟩]⟩)
    9 10 (-3) 5 ⟨"arb", 7, some 0, none, none, none, none⟩
  exact ⟨((h.2 (by decide)).2.2.2).trans (by decide), h9.1 (by decide)⟩

-- **************************** --
-- * Period-change handlers    * --
-- **************************** --

/-- The per-dispute body of `_storeAppealDeadline`'s `Promise.all`: build the
merged view (reading the dispute's current store data), set index
`numberOfAppeals` of its `appealDeadlines` to the fetched open-dispute
deadline, and write the array back via `updateDispute`. -/
def updateDeadlineForDispute (env : EventEnv) (contractAddress : Address)
    (disputeId : Nat) (store : List StoreDispute) :
    Except Unit (List StoreDispute) :=
  match getDataForDispute contractAddress disputeId env.d env.L env.arb
      env.evidence env.contractStoreFetch
      (fetchDisputeData store contractAddress disputeId) with
  | .error e => .error e
  | .ok dd =>
    .ok (updateStoreDispute store contractAddress disputeId
      ⟨none, none, none, none, none,
        some (jSet dd.appealDeadlines dd.numberOfAppeals env.deadlineVal), none⟩)

/-- The per-dispute body of `_storeDisputeRuledAtTimestamp`'s `Promise.all`:
build the merged view, set index `numberOfAppeals` of its `appealRuledAt` to
the event block's timestamp in milliseconds, and write the array back. -/
def updateRuledAtForDispute (env : EventEnv) (contractAddress : Address)
    (disputeId : Nat) (store : List StoreDispute) :
    Except Unit (List StoreDispute) :=
  match getDataForDispute contractAddress disputeId env.d env.L env.arb
      env.evidence env.contractStoreFetch
      (fetchDisputeData store contractAddress disputeId) with
  | .error e => .error e
  | .ok dd =>
    .ok (updateStoreDispute store contractAddress disputeId
      ⟨none, none, none, none, none, none,
        some (jSet dd.appealRuledAt dd.numberOfAppeals
          (env.blockTimestamp * 1000))⟩)

/-- Embedding of `Disputes._storeAppealDeadline`: when the freshly fetched
period is Vote, for each open-session dispute present in the snapshot of the
user's stored dispute list, run the per-dispute deadline update; otherwise do
nothing. The user's dispute list and the shared records are modelled as one
keyed collection (`getDisputesForUser` and `updateDispute` are not under
`src/`; the spec mirrors the shared record's appeal fields into the per-user
view). -/
def storeAppealDeadline (contractAddress : Address) (period : Nat)
    (openDisputes : List Nat) (envOf : Nat → EventEnv)
    (store : List StoreDispute) : Except Unit (List StoreDispute) :=
  if period = PERIOD_VOTE then
    openDisputes.foldlM (fun st disputeId =>
      if store.any (isDisputeKey contractAddress disputeId) then
        updateDeadlineForDispute (envOf disputeId) contractAddress disputeId st
      else .ok st) store
  else .ok store

/-- Embedding of `Disputes._storeDisputeRuledAtTimestamp`: when the freshly
fetched period is Appeal, for each open-session dispute present in the snapshot
of the user's stored dispute list, run the per-dispute ruled-at update;
otherwise do nothing. -/
def storeDisputeRuledAtTimestamp (contractAddress : Address) (period : Nat)
    (openDisputes : List Nat) (envOf : Nat → EventEnv)
    (store : List StoreDispute) : Except Unit (List StoreDispute) :=
  if period = PERIOD_APPEAL then
    openDisputes.foldlM (fun st disputeId =>
      if store.any (isDisputeKey contractAddress disputeId) then
        updateRuledAtForDispute (envOf disputeId) contractAddress disputeId st
      else .ok st) store
  else .ok store

theorem isDisputeKey_update_pres (a : Address) (id : Nat) (p : StoreDisputeParams) :
    ∀ x, isDisputeKey a id
      (if isDisputeKey a id x then mergeStoreDispute x p else x) =
      isDisputeKey a id x := by
  intro x
  cases hx : isDisputeKey a id x with
  | false =>
    rw [if_neg (by simp [hx])]
    exact hx
  | true =>
    rw [if_pos (by simp [hx]), isDisputeKey_mergeStoreDispute]
    exact hx

theorem getStoreDispute_updateStoreDispute_self (store : List StoreDispute)
    (a : Address) (id : Nat) (p : StoreDisputeParams) (r : StoreDispute)
    (hfind : getStoreDispute store a id = some r) :
    getStoreDispute (updateStoreDispute store a id p) a id =
      some (mergeStoreDispute r p) := by
  unfold getStoreDispute at hfind ⊢
  unfold updateStoreDispute
  rw [if_pos (by simp [hfind])]
  rw [find?_map_of_pres _ _ _ (isDisputeKey_update_pres a id p), hfind]
  simp only [Option.map_some']
  rw [if_pos (List.find?_some hfind)]

theorem filter_updateStoreDispute (store : List StoreDispute) (a : Address)
    (id : Nat) (p : StoreDisputeParams)
    (hsome : (store.find? (isDisputeKey a id)).isSome = true) :
    (updateStoreDispute store a id p).filter (fun x => !isDisputeKey a id x) =
      store.filter (fun x => !isDisputeKey a id x) := by
  unfold updateStoreDispute
  rw [if_pos hsome]
  exact filter_not_map_update _ _ _
    (fun x hx => by rw [if_neg (by simp [hx])]) (isDisputeKey_update_pres a id p)

theorem updateDeadlineForDispute_eq (env : EventEnv) (a : Address) (id : Nat)
    (store : List StoreDispute) (r : StoreDispute) (c : Option ContractRec)
    (hfind : getStoreDispute store a id = some r)
    (hok : env.contractStoreFetch = .ok c) :
    updateDeadlineForDispute env a id store =
      .ok (updateStoreDispute store a id
        ⟨none, none, none, none, none,
          some (jSet (r.appealDeadlines.getD []) env.d.numberOfAppeals
            env.deadlineVal), none⟩) := by
  have hf : fetchDisputeData store a id = .ok r := by
    unfold fetchDisputeData
    rw [hfind]
  unfold updateDeadlineForDispute
  rw [hf, hok]
  simp [getDataForDispute, storeDerivedOf]

theorem updateRuledAtForDispute_eq (env : EventEnv) (a : Address) (id : Nat)
    (store : List StoreDispute) (r : StoreDispute) (c : Option ContractRec)
    (hfind : getStoreDispute store a id = some r)
    (hok : env.contractStoreFetch = .ok c) :
    updateRuledAtForDispute env a id store =
      .ok (updateStoreDispute store a id
        ⟨none, none, none, none, none, none,
          some (jSet (r.appealRuledAt.getD []) env.d.numberOfAppeals
            (env.blockTimestamp * 1000))⟩) := by
  have hf : fetchDisputeData store a id = .ok r := by
    unfold fetchDisputeData
    rw [hfind]
  unfold updateRuledAtForDispute
  rw [hf, hok]
  simp [getDataForDispute, storeDerivedOf]

theorem storeAppealDeadline_singleton (a : Address) (id : Nat)
    (envOf : Nat → EventEnv) (store : List StoreDispute)
    (htrack : store.any (isDisputeKey a id) = true) :
    storeAppealDeadline a PERIOD_VOTE [id] envOf store =
      updateDeadlineForDispute (envOf id) a id store := by
  unfold storeAppealDeadline
  rw [if_pos rfl]
  simp [List.foldlM, htrack]

theorem storeDisputeRuledAtTimestamp_singleton (a : Address) (id : Nat)
    (envOf : Nat → EventEnv) (store : List StoreDispute)
    (htrack : store.any (isDisputeKey a id) = true) :
    storeDisputeRuledAtTimestamp a PERIOD_APPEAL [id] envOf store =
      updateRuledAtForDispute (envOf id) a id store := by
  unfold storeDisputeRuledAtTimestamp
  rw [if_pos rfl]
  simp [List.foldlM, htrack]

/-- C6: for a period-change event, the deadline handler (resp. ruled-at
handler) runs only in the Vote (resp. Appeal) period and only for disputes
present in the user's stored dispute list, and writes only index
`numberOfAppeals` of the dispute's current `appealDeadlines` (resp.
`appealRuledAt`) array read from the merged view: the written array holds the
new value at that index, coincides with the old array at every other index
(already-set entries of earlier rounds are never overwritten or removed), and
every other store record is untouched. -/
theorem storeAppealDeadline_writes_only_current_round (a : Address) (id : Nat)
    (envOf : Nat → EventEnv) (store : List StoreDispute) (period : Nat)
    (r : StoreDispute) (c : Option ContractRec) :
    (period ≠ PERIOD_VOTE →
      storeAppealDeadline a period [id] envOf store = .ok store) ∧
    (period ≠ PERIOD_APPEAL →
      storeDisputeRuledAtTimestamp a period [id] envOf store = .ok store) ∧
    (store.any (isDisputeKey a id) = false →
      storeAppealDeadline a PERIOD_VOTE [id] envOf store = .ok store ∧
      storeDisputeRuledAtTimestamp a PERIOD_APPEAL [id] envOf store = .ok store) ∧
    (getStoreDispute store a id = some r →
      (envOf id).contractStoreFetch = .ok c →
      ((storeAppealDeadline a PERIOD_VOTE [id] envOf store).map
        (fun s => (getStoreDispute s a id).map (fun x => x.appealDeadlines))) =
        .ok (some (some (jSet (r.appealDeadlines.getD [])
          (envOf id).d.numberOfAppeals (envOf id).deadlineVal))) ∧
      ((storeAppealDeadline a PERIOD_VOTE [id] envOf store).map
        (fun s => s.filter (fun x => !isDisputeKey a id x))) =
        .ok (store.filter (fun x => !isDisputeKey a id x)) ∧
      ((storeDisputeRuledAtTimestamp a PERIOD_APPEAL [id] envOf store).map
        (fun s => (getStoreDispute s a id).map (fun x => x.appealRuledAt))) =
        .ok (some (some (jSet (r.appealRuledAt.getD [])
          (envOf id).d.numberOfAppeals ((envOf id).blockTimestamp * 1000)))) ∧
      ((storeDisputeRuledAtTimestamp a PERIOD_APPEAL [id] envOf store).map
        (fun s => s.filter (fun x => !isDisputeKey a id x))) =
        .ok (store.filter (fun x => !isDisputeKey a id x))) ∧
    (∀ (n v : Nat) (l : List (Option Nat)),
      jGet (jSet l n v) n = some v ∧
      ∀ j, j ≠ n → jGet (jSet l n v) j = jGet l j) := by
  refine ⟨fun hp => ?_, fun hp => ?_, fun hun => ⟨?_, ?_⟩, fun hfind hok => ?_,
    fun n v l => ⟨jGet_jSet_self l n v, fun j hj => jGet_jSet_ne l n j v hj⟩⟩
  · unfold storeAppealDeadline
    rw [if_neg hp]
  · unfold storeDisputeRuledAtTimestamp
    rw [if_neg hp]
  · unfold storeAppealDeadline
    rw [if_pos rfl]
    simp [List.foldlM, hun]
  · unfold storeDisputeRuledAtTimestamp
    rw [if_pos rfl]
    simp [List.foldlM, hun]
  · have htrack : store.any (isDisputeKey a id) = true :=
      List.any_eq_true.2 ⟨r, List.mem_of_find?_eq_some hfind, List.find?_some hfind⟩
    have hD := updateDeadlineForDispute_eq (envOf id) a id store r c hfind hok
    have hR := updateRuledAtForDispute_eq (envOf id) a id store r c hfind hok
    have hsome : (store.find? (isDisputeKey a id)).isSome = true := by
      unfold getStoreDispute at hfind
      simp [hfind]
    refine ⟨?_, ?_, ?_, ?_⟩
    · rw [storeAppealDeadline_singleton a id envOf store htrack, hD]
      simp only [Except.map]
      rw [getStoreDispute_updateStoreDispute_self store a id _ r hfind]
      rfl
    · rw [storeAppealDeadline_singleton a id envOf store htrack, hD]
      simp only [Except.map]
      rw [filter_updateStoreDispute store a id _ hsome]
    · rw [storeDisputeRuledAtTimestamp_singleton a id envOf store htrack, hR]
      simp only [Except.map]
      rw [getStoreDispute_updateStoreDispute_self store a id _ r hfind]
      rfl
    · rw [storeDisputeRuledAtTimestamp_singleton a id envOf store htrack, hR]
      simp only [Except.map]
      rw [filter_updateStoreDispute store a id _ hsome]

/-- C6 witness: one Vote-period event writes round 0's deadline of a tracked
dispute, and three events across rounds 0, 1, 2 leave `appealDeadlines` with
exactly the three entries, round 0's entry unchanged. -/
theorem storeAppealDeadline_writes_only_current_round_witness :
    ((storeAppealDeadline "a" PERIOD_VOTE [7]
        (fun _ => ⟨⟨"c", 10, 0, 0, 0, 7, []⟩, ⟨2, 10, fun _ => 0, fun _ => false⟩,
          ⟨"pa", "pb", 0⟩, [], .ok none, 55, 100⟩)
        [⟨"a", 7, none, none, none, none, none, none, none, none, none⟩]).map
      (fun s => (getStoreDispute s "a" 7).map (fun x => x.appealDeadlines))) =
      .ok (some (some [some 100])) ∧
    ((((storeAppealDeadline "a" PERIOD_VOTE [7]
        (fun _ => ⟨⟨"c", 10, 0, 0, 0, 7, []⟩, ⟨2, 10, fun _ => 0, fun _ => false⟩,
          ⟨"pa", "pb", 0⟩, [], .ok none, 55, 100⟩)
        [⟨"a", 7, none, none, none, none, none, none, none, none, none⟩]).bind
      (storeAppealDeadline "a" PERIOD_VOTE [7]
        (fun _ => ⟨⟨"c", 10, 1, 0, 0, 7, []⟩, ⟨2, 11, fun _ => 0, fun _ => false⟩,
          ⟨"pa", "pb", 0⟩, [], .ok none, 56, 200⟩))).bind
      (storeAppealDeadline "a" PERIOD_VOTE [7]
        (fun _ => ⟨⟨"c", 10, 2, 0, 0, 7, []⟩, ⟨2, 12, fun _ => 0, fun _ => false⟩,
          ⟨"pa", "pb", 0⟩, [], .ok none, 57, 300⟩))).map
      (fun s => (getStoreDispute s "a" 7).map (fun x => x.appealDeadlines))) =
      .ok (some (some [some 100, some 200, some 300])) := by
  have h := (storeAppealDeadline_writes_only_current_round "a" 7
    (fun _ => ⟨⟨"c", 10, 0, 0, 0, 7, []⟩, ⟨2, 10, fun _ => 0, fun _ => false⟩,
      ⟨"pa", "pb", 0⟩, [], .ok none, 55, 100⟩)
    [⟨"a", 7, none, none, none, none, none, none, none, none, none⟩] PERIOD_VOTE
    ⟨"a", 7, none, none, none, none, none, none, none, none, none⟩
    none).2.2.2.1 (by decide) rfl
  exact ⟨h.1.trans (by decide), by decide⟩

-- **************************** --
-- * Juror draw scanner (C7)   * --
-- **************************** --

/-- Modelled from the spec: the null/unset sentinel address (the `constants`
module is not under `src/`) — the value the ledger's dispute record holds at an
out-of-range index. -/
def NULL_ADDRESS : Address := "0x0000000000000000000000000000000000000000"

/-- A ledger dispute record as read by the juror scanner
(`abstractWrappers/Disputes.js`). -/
structure WDispute where
  arbitratedContract : Address
  firstSession : Nat
  numberOfAppeals : Nat
deriving DecidableEq

/-- The ledger reads of the juror scanner, with the account fixed:
`getDispute` may throw (out-of-range index), `isJurorDrawn` is
`isJurorDrawnForDispute` for this account. -/
structure WLedger where
  session : Nat
  getDispute : Nat → Except Unit WDispute
  numberOfJurors : Nat → Nat
  isJurorDrawn : Nat → Nat → Bool

/-- Embedding of `Disputes.getVotesForJuror` (`abstractWrappers/Disputes.js`):
the draw slots `1..numberOfJurors` the account holds for a dispute. -/
def getVotesForJuror (L : WLedger) (disputeId : Nat) : List Nat :=
  ((List.range (L.numberOfJurors disputeId)).map (fun k => k + 1)).filter
    (fun draw => L.isJurorDrawn disputeId draw)

/-- Embedding of the `while (1)` loop of `getDisputeContractsForJuror`, with
explicit fuel bounding the number of iterations (`none` when the fuel runs out
before the scan terminates). A read failure or the sentinel address ends the
scan normally; the session-mismatch skip branch performs the source's
redundant extra `getDispute` fetch, whose failure also ends the scan. -/
def getDisputeContractsForJurorAux (L : WLedger) :
    Nat → Nat → List Address → Option (List Address)
  | 0, _, _ => none
  | fuel + 1, disputeId, acc =>
    match L.getDispute disputeId with
    | .error _ => some acc.reverse
    | .ok dispute =>
      if dispute.arbitratedContract == NULL_ADDRESS then some acc.reverse
      else if dispute.firstSession + dispute.numberOfAppeals != L.session then
        match L.getDispute (disputeId + 1) with
        | .error _ => some acc.reverse
        | .ok _ => getDisputeContractsForJurorAux L fuel (disputeId + 1) acc
      else if 0 < (getVotesForJuror L disputeId).length then
        getDisputeContractsForJurorAux L fuel (disputeId + 1)
          (dispute.arbitratedContract :: acc)
      else getDisputeContractsForJurorAux L fuel (disputeId + 1) acc

/-- Embedding of `Disputes.getDisputeContractsForJuror`: scan dispute indices
from 0. -/
def getDisputeContractsForJuror (L : WLedger) (fuel : Nat) :
    Option (List Address) :=
  getDisputeContractsForJurorAux L fuel 0 []

/-- The scan-terminating condition at an index: the ledger read fails or the
record holds the sentinel address. -/
def scanStops (L : WLedger) (i : Nat) : Bool :=
  match L.getDispute i with
  | .error _ => true
  | .ok d => d.arbitratedContract == NULL_ADDRESS

/-- What the scan contributes at one index: the arbitrated contract when the
dispute is in the current session and the account holds at least one draw. -/
def scanEntry (L : WLedger) (i : Nat) : Option Address :=
  match L.getDispute i with
  | .ok d =>
    if d.firstSession + d.numberOfAppeals = L.session ∧
        0 < (getVotesForJuror L i).length then some d.arbitratedContract
    else none
  | .error _ => none

/-- The contracts a scan of indices `j..k-1` collects: disputes of the current
session for which the account holds at least one draw. -/
def collectJurorContracts (L : WLedger) (j k : Nat) : List Address :=
  (List.range' j (k - j)).filterMap (scanEntry L)

theorem collectJurorContracts_self (L : WLedger) (j : Nat) :
    collectJurorContracts L j j = [] := by
  simp [collectJurorContracts]

theorem scanAux_eq (L : WLedger) (k : Nat)
    (hstop : scanStops L k = true)
    (hrun : ∀ i, i < k → scanStops L i = false) :
    ∀ fuel j acc, j ≤ k → k - j < fuel →
      getDisputeContractsForJurorAux L fuel j acc =
        some (acc.reverse ++ collectJurorContracts L j k) := by
  intro fuel
  induction fuel with
  | zero =>
    intro j acc hj hlt
    omega
  | succ fuel ih =>
    intro j acc hj hlt
    rcases Nat.eq_or_lt_of_le hj with heq | hltk
    · subst heq
      rw [collectJurorContracts_self, List.append_nil]
      cases hg : L.getDispute j with
      | error e => simp [getDisputeContractsForJurorAux, hg]
      | ok d =>
        have hstop2 : (d.arbitratedContract == NULL_ADDRESS) = true := by
          simp only [scanStops, hg] at hstop
          exact hstop
        simp [getDisputeContractsForJurorAux, hg, hstop2]
    · have hja : scanStops L j = false := hrun j hltk
      cases hg : L.getDispute j with
      | error e =>
        exact absurd (by simpa only [scanStops, hg] using hja) (by decide)
      | ok d =>
        have hsent : (d.arbitratedContract == NULL_ADDRESS) = false := by
          simp only [scanStops, hg] at hja
          exact hja
        have hcons : collectJurorContracts L j k =
            (if d.firstSession + d.numberOfAppeals = L.session ∧
                0 < (getVotesForJuror L j).length then [d.arbitratedContract]
              else []) ++ collectJurorContracts L (j + 1) k := by
          unfold collectJurorContracts
          rw [show k - j = (k - (j + 1)) + 1 from by omega, List.range'_succ,
            List.filterMap_cons]
          by_cases hcond : d.firstSession + d.numberOfAppeals = L.session ∧
              0 < (getVotesForJuror L j).length
          · simp [scanEntry, hg, hcond]
          · simp [scanEntry, hg, hcond]
        simp only [getDisputeContractsForJurorAux, hg]
        rw [if_neg (by simp [hsent])]
        by_cases hsm : d.firstSession + d.numberOfAppeals = L.session
        · rw [if_neg (by simp [hsm])]
          by_cases hv : 0 < (getVotesForJuror L j).length
          · rw [if_pos hv, ih (j + 1) (d.arbitratedContract :: acc) (by omega)
              (by omega), hcons, if_pos ⟨hsm, hv⟩]
            simp
          · rw [if_neg hv, ih (j + 1) acc (by omega) (by omega), hcons,
              if_neg (by intro hc; exact hv hc.2)]
            simp
        · rw [if_pos (by simp [hsm])]
          have hcol : collectJurorContracts L j k =
              collectJurorContracts L (j + 1) k := by
            rw [hcons, if_neg (by intro hc; exact hsm hc.1)]
            rfl
          cases hg2 : L.getDispute (j + 1) with
          | error e2 =>
            have hjk : j + 1 = k := by
              by_contra hne
              have h2 := hrun (j + 1) (by omega)
              simp only [scanStops, hg2] at h2
              exact absurd h2 (by decide)
            show some acc.reverse =
              some (acc.reverse ++ collectJurorContracts L j k)
            rw [hcol, hjk, collectJurorContracts_self, List.append_nil]
          | ok d2 =>
            show getDisputeContractsForJurorAux L fuel (j + 1) acc =
              some (acc.reverse ++ collectJurorContracts L j k)
            rw [ih (j + 1) acc (by omega) (by omega), hcol]

/-- C7: the juror scan enumerates dispute indices from 0 and, as soon as some
index fails the ledger read or returns the null-sentinel contract address,
terminates normally (no error reaches the caller and the fuelled loop does not
exhaust), returning exactly the arbitrated-contract addresses of the earlier
indices whose `firstSession + numberOfAppeals` equals the current session and
for which the account holds at least one juror draw. -/
theorem getDisputeContractsForJuror_terminates (L : WLedger) (k fuel : Nat)
    (hrun : ∀ i, i < k → scanStops L i = false)
    (hstop : scanStops L k = true) (hfuel : k < fuel) :
    getDisputeContractsForJuror L fuel = some (collectJurorContracts L 0 k) := by
  have h := scanAux_eq L k hstop hrun fuel 0 [] (Nat.zero_le k) (by omega)
  simpa [getDisputeContractsForJuror] using h

/-- C7 witness: disputes at indices 0 and 1 (both in the current session, with
draws held at 1 only), and a read failure at index 2: the scan terminates and
returns only index 1's contract. -/
theorem getDisputeContractsForJuror_terminates_witness :
    getDisputeContractsForJuror
      ⟨5, fun i => if i = 0 then .ok ⟨"c0", 4, 0⟩
        else if i = 1 then .ok ⟨"c1", 5, 0⟩ else .error (),
        fun _ => 2, fun i draw => i == 1 && draw == 1⟩ 3 =
      some ["c1"] := by
  have h := getDisputeContractsForJuror_terminates
    ⟨5, fun i => if i = 0 then .ok ⟨"c0", 4, 0⟩
      else if i = 1 then .ok ⟨"c1", 5, 0⟩ else .error (),
      fun _ => 2, fun i draw => i == 1 && draw == 1⟩ 2 3
    (by decide) (by decide) (by decide)
  exact h.trans (by decide)

end KlerosApi
